import Mathlib

/-!
Verification of the DuanjuSpider plugin core (main.py): mirror discovery,
redirect resolution, liveness probing, search aggregation, pan-link
extraction and the per-user result cache.

Network I/O is modelled by oracles: each HTTP interaction of the Python
code becomes a parameter describing the response the network would give
(`none` standing for a raised exception), and the Python control flow is
translated function-by-function into Lean.
-/

namespace DuanjuSpider

/-! ## Basic string helpers (Python semantics) -/

/-- Python `needle in hay` substring test on code points. -/
def hasSub (needle : List Char) : List Char → Bool
  | [] => needle.isEmpty
  | c :: rest => needle.isPrefixOf (c :: rest) || hasSub needle rest

/-- Python `s.startswith(p)` on code points. -/
def strStartsWith (s p : String) : Bool :=
  p.data.isPrefixOf s.data

/-- Python `s.endswith(p)` on code points. -/
def strEndsWith (s p : String) : Bool :=
  p.data.isSuffixOf s.data

/-- Python `u.rstrip('/')`: drop every trailing `'/'`. -/
def rstripSlash (u : String) : String :=
  String.mk ((u.data.reverse.dropWhile (fun c => c == '/')).reverse)

/-! ## Liveness prober: `check_url_accessibility` (main.py lines 210-217)

The single GET probe is an oracle `Option Nat`: `some s` is a response
with HTTP status `s`, `none` is any raised exception (timeout, DNS
failure, connection refused). The Python body returns
`response.status == 200`, and the bare `except:` returns `False`. -/

def check_url_accessibility (probe : Option Nat) : Bool :=
  match probe with
  | some status => status == 200
  | none => false

/-! ## Redirect resolver: `resolve_short_url` (main.py lines 117-157)

One loop attempt is an oracle value: `resp status location` is a
completed HTTP response (redirects disabled), `exn` is a raised
exception. The function consumes at most `max_retries = 3` attempt
outcomes; besides the Python return value we record how many attempts
were made and how many `asyncio.sleep(2)` pauses were executed. -/

inductive AttemptOutcome where
  | resp (status : Nat) (location : Option String)
  | exn
deriving DecidableEq

/-- `status_code in (301, 302, 303, 307, 308)` -/
def isRedirectStatus (s : Nat) : Bool :=
  s == 301 || s == 302 || s == 303 || s == 307 || s == 308

/-- Result of the retry loop: the Python return value, the number of loop
iterations that ran, and the number of 2-second sleeps executed. -/
structure ResolveTrace where
  result : Option String
  attemptsUsed : Nat
  sleeps : Nat
deriving DecidableEq

/-- Mark one failed attempt: the retry counter advances and, when another
attempt remains (`retry_count < max_retries`), a 2-second sleep runs. -/
def failStep (t : ResolveTrace) (moreLeft : Bool) : ResolveTrace :=
  ⟨t.result, t.attemptsUsed + 1, t.sleeps + (if moreLeft then 1 else 0)⟩

/-- The `while retry_count < max_retries` body of `resolve_short_url`,
run on the list of outcomes still allowed (its length is
`max_retries - retry_count`). -/
def resolveLoop (url : String) : List AttemptOutcome → ResolveTrace
  | [] => ⟨none, 0, 0⟩
  | .resp s loc :: rest =>
    if isRedirectStatus s then
      match loc with
      | some redirect => ⟨some redirect, 1, 0⟩
      | none => failStep (resolveLoop url rest) (!rest.isEmpty)
    else if s == 200 then ⟨some url, 1, 0⟩
    else failStep (resolveLoop url rest) (!rest.isEmpty)
  | .exn :: rest => failStep (resolveLoop url rest) (!rest.isEmpty)

/-- `if not short_url.startswith('http'): short_url = f'http://{short_url}'` -/
def normalizeShortUrl (input : String) : String :=
  if strStartsWith input "http" then input else "http://" ++ input

/-- `resolve_short_url(short_url, headers, max_retries=3)`: the oracle
lists the outcome of each successive attempt; only the first
`max_retries` entries can ever be consumed. -/
def resolve_short_url (input : String) (oracle : List AttemptOutcome)
    (maxRetries : Nat) : ResolveTrace :=
  resolveLoop (normalizeShortUrl input) (oracle.take maxRetries)

/-! ## Endpoint discovery: `update_urls` (main.py lines 159-208)

The per-seed calls to `resolve_short_url` are summarised by a list
`resolved : List (Option String)`, one entry per element of
`short_urls` (`none` when resolution returned `None`). -/

/-- `if not resolved_url.endswith('search.php'): ...` — normalise a
resolved URL to end in the fixed search path segment. -/
def ensureSearchPath (u : String) : String :=
  if strEndsWith u "search.php" then u
  else if strEndsWith u "/" then u ++ "search.php"
  else u ++ "/search.php"

/-- The `for short_url in self.short_urls` loop: `normBase` is the
`normalized_base_urls` list computed before the loop, `newUrls` the
`new_urls` accumulator; returns the final `new_urls`. -/
def discoverNew (normBase : List String) (newUrls : List String) :
    List (Option String) → List String
  | [] => newUrls
  | none :: rest => discoverNew normBase newUrls rest
  | some resolved :: rest =>
    let url := ensureSearchPath resolved
    let normalized := rstripSlash url
    if normalized ∉ normBase ∧ normalized ∉ newUrls.map rstripSlash then
      discoverNew normBase (newUrls ++ [url]) rest
    else
      discoverNew normBase newUrls rest

/-- `update_urls`: the value of `self.base_urls` after the discovery
pass (all new URLs are appended at the end, in discovery order). -/
def update_urls (base_urls : List String) (resolved : List (Option String)) :
    List String :=
  base_urls ++ discoverNew (base_urls.map rstripSlash) [] resolved

/-! ## Result cache (main.py lines 28-31, 102-115, 436-534, 558-575)

`self.search_cache` is a dict keyed by `f"{chat_id}_{sender}"`; we model
it as a function from keys to optional entries (Python dict keys are
unique). Timestamps are event-loop times, modelled as rationals. -/

structure SearchResult where
  title : String
  pan_link : String
deriving DecidableEq, Inhabited

structure CacheEntry where
  results : List SearchResult
  keyword : String
  timestamp : ℚ
deriving DecidableEq

def Cache : Type := String → Option CacheEntry

/-- The empty `self.search_cache = {}`. -/
def emptyCache : Cache := fun _ => none

/-- `self.cache_expire_time = 300`. -/
def cache_expire_time : ℚ := 300

/-- `_clean_expired_cache` (lines 102-115): delete every entry with
`current_time - timestamp > expire_time`. -/
def clean_expired_cache (cache : Cache) (now ttl : ℚ) : Cache :=
  fun key =>
    match cache key with
    | some entry => if now - entry.timestamp > ttl then none else some entry
    | none => none

/-- `self.search_cache[cache_key] = {'results': ..., 'keyword': ...,
'timestamp': ...}` (lines 559-563): dict assignment overwrites. -/
def cachePut (cache : Cache) (key keyword : String)
    (results : List SearchResult) (now : ℚ) : Cache :=
  fun k => if k = key then some ⟨results, keyword, now⟩ else cache k

/-- Outcome of the detail-lookup path of `handle_text`. -/
inductive LookupResult where
  | notFound
  | outOfRange (count : Nat)
  | found (r : SearchResult)
deriving DecidableEq

/-- The detail branch of `handle_text` (lines 505-524): no entry for the
key means "search first"; `index < 1 or index > len(results)` means
"invalid index"; otherwise `results[index-1]` is returned. -/
def resolve_index (cache : Cache) (key : String) (index : Nat) : LookupResult :=
  match cache key with
  | none => .notFound
  | some entry =>
    if index < 1 ∨ index > entry.results.length then
      .outOfRange entry.results.length
    else
      .found ((entry.results.get? (index - 1)).getD default)

/-- The detail path as `handle_text` runs it: the lazy cache purge at
line 440 precedes the lookup at lines 505-524. -/
def handleDetail (cache : Cache) (now : ℚ) (key : String) (index : Nat) :
    LookupResult :=
  resolve_index (clean_expired_cache cache now cache_expire_time) key index

/-- The reply preview of the search branch (lines 567-571):
`max_show = min(len(results), self.max_results)`, then the titles of
`results[:max_show]` are listed. -/
def previewTitles (results : List SearchResult) (max_results : Nat) :
    List String :=
  (results.take (min results.length max_results)).map (fun r => r.title)

/-! ## Pan-link extraction: `get_pan_link` (main.py lines 645-664)

The GET of the detail page is an oracle: `exn` for a raised exception,
`resp status desc` for a response whose parsed `<meta name="description">`
content is `desc` (`none` when the tag or its `content` attribute is
absent). The regex `链接：(https://pan\.quark\.cn/s/[a-zA-Z0-9]+)` is
embedded on code points with `re.search` leftmost semantics. -/

inductive DetailFetch where
  | exn
  | resp (status : Nat) (desc : Option String)

/-- `[a-zA-Z0-9]` -/
def isAlnum (c : Char) : Bool :=
  (('a' ≤ c) && (c ≤ 'z')) || (('A' ≤ c) && (c ≤ 'Z')) || (('0' ≤ c) && (c ≤ '9'))

/-- The literal part of the pattern before the capture group's token:
`链接：https://pan.quark.cn/s/`. -/
def panLabel : List Char := "链接：https://pan.quark.cn/s/".data

/-- The captured group starts at `https`. -/
def panUrlStart : List Char := "https://pan.quark.cn/s/".data

/-- Try the whole regex at one start position: the literal label must
match here and at least one alphanumeric character must follow; the
greedy `+` captures the maximal alphanumeric run. -/
def panMatchAt (cs : List Char) : Option (List Char) :=
  if panLabel.isPrefixOf cs then
    let run := (cs.drop panLabel.length).takeWhile isAlnum
    if run.isEmpty then none else some (panUrlStart ++ run)
  else none

/-- `re.search`: scan start positions left to right, return the first
position where the whole pattern matches (group 1 of that match). -/
def panSearch : List Char → Option (List Char)
  | [] => none
  | c :: rest =>
    match panMatchAt (c :: rest) with
    | some m => some m
    | none => panSearch rest

/-- `get_pan_link`: `None` unless the status is 200 and the description
metadata is present, non-empty (Python truthiness of
`meta_desc.get('content')`) and matches the pattern. -/
def get_pan_link (fetch : DetailFetch) : Option String :=
  match fetch with
  | .exn => none
  | .resp status desc =>
    if status ≠ 200 then none
    else
      match desc with
      | none => none
      | some content =>
        if content = "" then none
        else (panSearch content.data).map String.mk

/-! ## Search aggregation: `search_drama` (main.py lines 591-643)

Per endpoint, the network behaviour is: the liveness probe's verdict,
and the search-page GET's outcome (`none` = exception while fetching,
`some (status, anchors)` = a response that parses to the given list of
`<a href=...>` elements). Detail-page fetches inside the anchor loop are
a single oracle `pan : String → Option String` standing for
`get_pan_link` on each `href` (that function catches its own exceptions
and returns `None`, never raising into `search_drama`). -/

structure Anchor where
  href : String
  title : Option String
deriving DecidableEq

structure EndpointBehavior where
  alive : Bool
  fetch : Option (Nat × List Anchor)

/-- Scanner for `re.sub(r'</?strong>', '', title)`, structurally
recursive on a fuel argument (any fuel at least the list length gives
the scan's value; `stripStrong` passes the length). -/
def stripStrongGo : Nat → List Char → List Char
  | _, [] => []
  | 0, cs => cs
  | fuel + 1, c :: rest =>
    if "<strong>".data.isPrefixOf (c :: rest) then
      stripStrongGo fuel (rest.drop 7)
    else if "</strong>".data.isPrefixOf (c :: rest) then
      stripStrongGo fuel (rest.drop 8)
    else
      c :: stripStrongGo fuel rest

/-- `re.sub(r'</?strong>', '', title)`: delete every non-overlapping
occurrence of `<strong>` or `</strong>`, scanning left to right. -/
def stripStrong (cs : List Char) : List Char :=
  stripStrongGo cs.length cs

/-- The anchor filter of lines 629-632: `href` truthy, starts with
`http` (the `https` disjunct is subsumed), and contains `id=`. -/
def anchorSelected (a : Anchor) : Bool :=
  a.href ≠ "" && (strStartsWith a.href "http" || strStartsWith a.href "https")
    && hasSub "id=".data a.href.data

/-- The `for link in links` loop (lines 628-635): each selected anchor
contributes a result exactly when its detail page yields a pan link;
the stored title is `link.get('title', '')` with bold markup removed. -/
def collectResults (anchors : List Anchor) (pan : String → Option String) :
    List SearchResult :=
  match anchors with
  | [] => []
  | a :: rest =>
    if anchorSelected a then
      match pan a.href with
      | some link =>
        ⟨String.mk (stripStrong (a.title.getD "").data), link⟩
          :: collectResults rest pan
      | none => collectResults rest pan
    else
      collectResults rest pan

/-- What one live endpoint's `try` block produces (lines 608-640): an
exception or a non-200 status yields no results and the outer loop
continues; a 200 page is parsed and the anchor loop runs. -/
def endpointResults (b : EndpointBehavior) (pan : String → Option String) :
    List SearchResult :=
  match b.fetch with
  | none => []
  | some (status, anchors) =>
    if status ≠ 200 then [] else collectResults anchors pan

/-- `search_drama` (lines 591-643): walk `base_urls` in stored order,
skip endpoints whose probe fails, return the first non-empty result
list, and `[]` when every endpoint is dead or yields zero results. -/
def search_drama (endpoints : List EndpointBehavior)
    (pan : String → Option String) : List SearchResult :=
  match endpoints with
  | [] => []
  | b :: rest =>
    if b.alive then
      let results := endpointResults b pan
      if results.isEmpty then search_drama rest pan else results
    else
      search_drama rest pan

/-! ## Auxiliary predicates used by the statements -/

/-- A retried attempt in the sense of the resolver contract: any status
other than a redirect or 200, or any network failure. -/
def failedAttempt : AttemptOutcome → Bool
  | .exn => true
  | .resp s _ => !isRedirectStatus s && s != 200

/-- An attempt the loop moves past without returning: covers
`failedAttempt` and also a redirect status without a `Location` header. -/
def attemptYieldsNothing : AttemptOutcome → Bool
  | .exn => true
  | .resp s loc => if isRedirectStatus s then loc.isNone else s != 200

/-- Following the spec's words (the claim side of claim C7): an href
that "is an absolute http/https URL", read as carrying an `http://` or
`https://` scheme. -/
def specAbsoluteHttpUrl (href : String) : Bool :=
  strStartsWith href "http://" || strStartsWith href "https://"

/-- Following the spec's words (the claim side of claim C7): the anchors
claim C7 says are selected — absolute http/https href containing `id=`. -/
def specAnchorSelected (a : Anchor) : Bool :=
  specAbsoluteHttpUrl a.href && hasSub "id=".data a.href.data

/-! ## Helper lemmas: the redirect resolver's retry loop -/

theorem resolveLoop_allFail (url : String) (l : List AttemptOutcome)
    (h : ∀ a ∈ l, attemptYieldsNothing a = true) :
    resolveLoop url l = ⟨none, l.length, l.length - 1⟩ := by
  induction l with
  | nil => rfl
  | cons a rest ih =>
    have ha := h a (List.mem_cons_self a rest)
    have ihr := ih fun b hb => h b (List.mem_cons_of_mem a hb)
    cases a with
    | exn =>
      cases rest with
      | nil => simp [resolveLoop, failStep, ihr]
      | cons b rs =>
        simp only [resolveLoop, failStep, ihr, List.isEmpty_cons, Bool.not_false,
          if_true, List.length_cons, ResolveTrace.mk.injEq]
        refine ⟨trivial, trivial, ?_⟩
        omega
    | resp s loc =>
      by_cases hs : isRedirectStatus s = true
      · have hloc : loc = none := by
          cases loc with
          | none => rfl
          | some x => simp [attemptYieldsNothing, hs] at ha
        subst hloc
        cases rest with
        | nil => simp [resolveLoop, failStep, hs, ihr]
        | cons b rs =>
          simp only [resolveLoop, hs, if_true, failStep, ihr, List.isEmpty_cons,
            Bool.not_false, List.length_cons, ResolveTrace.mk.injEq]
          refine ⟨trivial, trivial, ?_⟩
          omega
      · have h200 : (s == 200) = false := by
          simp only [attemptYieldsNothing, hs] at ha
          simpa using ha
        cases rest with
        | nil => simp [resolveLoop, failStep, hs, h200, ihr]
        | cons b rs =>
          simp only [resolveLoop, hs, h200, Bool.false_eq_true, if_false, failStep,
            ihr, List.isEmpty_cons, Bool.not_false, if_true, List.length_cons,
            ResolveTrace.mk.injEq]
          refine ⟨trivial, trivial, ?_⟩
          omega

theorem resolveLoop_attempts_le (url : String) (l : List AttemptOutcome) :
    (resolveLoop url l).attemptsUsed ≤ l.length := by
  induction l with
  | nil => simp [resolveLoop]
  | cons a rest ih =>
    cases a with
    | exn => simp only [resolveLoop, failStep, List.length_cons]; omega
    | resp s loc =>
      by_cases hs : isRedirectStatus s = true
      · cases loc with
        | some x => simp [resolveLoop, hs]
        | none => simp only [resolveLoop, hs, if_true, failStep, List.length_cons]; omega
      · by_cases h200 : (s == 200) = true
        · simp [resolveLoop, hs, h200]
        · simp only [resolveLoop, hs, h200, Bool.false_eq_true, if_false, failStep,
            List.length_cons]
          omega

theorem resolveLoop_sleep_spacing (url : String) (l : List AttemptOutcome)
    (h : l ≠ []) :
    (resolveLoop url l).sleeps + 1 = (resolveLoop url l).attemptsUsed := by
  induction l with
  | nil => exact absurd rfl h
  | cons a rest ih =>
    have hstep : (failStep (resolveLoop url rest) (!rest.isEmpty)).sleeps + 1
        = (failStep (resolveLoop url rest) (!rest.isEmpty)).attemptsUsed := by
      cases rest with
      | nil => simp [resolveLoop, failStep]
      | cons b rs =>
        have hr := ih (by simp)
        simp only [failStep, List.isEmpty_cons, Bool.not_false, if_true]
        omega
    cases a with
    | exn => simpa only [resolveLoop] using hstep
    | resp s loc =>
      by_cases hs : isRedirectStatus s = true
      · cases loc with
        | some x => simp [resolveLoop, hs]
        | none => simpa only [resolveLoop, hs, if_true] using hstep
      · by_cases h200 : (s == 200) = true
        · simp [resolveLoop, hs, h200]
        · simpa only [resolveLoop, hs, h200, Bool.false_eq_true, if_false] using hstep

/-! ## Claim C8: the liveness prober -/

/-- C8: `check_url_accessibility` returns `true` if and only if the GET
probe yields HTTP status exactly 200; every exception yields `false`
(there is no retry: exactly one probe outcome is consumed). -/
theorem check_url_accessibility_iff_200 :
    (∀ probe : Option Nat, check_url_accessibility probe = true ↔ probe = some 200)
    ∧ check_url_accessibility none = false := by
  refine ⟨fun probe => ?_, rfl⟩
  cases probe with
  | none => simp [check_url_accessibility]
  | some s => simp [check_url_accessibility]

/-! ## Claim C2: the redirect resolver's contract -/

/-- C2: with `http://` prepended to scheme-less inputs, the resolver
returns the `Location` value verbatim on a 3xx response, the original
(normalised) URL on a 200 response, and otherwise retries — never more
than 3 attempts, with one 2-second sleep between consecutive attempts —
returning `none` when three attempts in a row fail with another status
or a network failure. -/
theorem resolve_short_url_contract :
    (∀ input : String, strStartsWith input "http" = false →
        normalizeShortUrl input = "http://" ++ input)
    ∧ (∀ (input : String) (s : Nat) (l : String) (rest : List AttemptOutcome),
        isRedirectStatus s = true →
        resolve_short_url input (.resp s (some l) :: rest) 3 = ⟨some l, 1, 0⟩)
    ∧ (∀ (input : String) (loc : Option String) (rest : List AttemptOutcome),
        resolve_short_url input (.resp 200 loc :: rest) 3
          = ⟨some (normalizeShortUrl input), 1, 0⟩)
    ∧ (∀ (input : String) (oracle : List AttemptOutcome),
        3 ≤ oracle.length →
        (∀ a ∈ oracle.take 3, failedAttempt a = true) →
        resolve_short_url input oracle 3 = ⟨none, 3, 2⟩)
    ∧ (∀ (input : String) (oracle : List AttemptOutcome),
        (resolve_short_url input oracle 3).attemptsUsed ≤ 3)
    ∧ (∀ (input : String) (oracle : List AttemptOutcome), oracle ≠ [] →
        (resolve_short_url input oracle 3).sleeps + 1
          = (resolve_short_url input oracle 3).attemptsUsed) := by
  refine ⟨?_, ?_, ?_, ?_, ?_, ?_⟩
  · intro input h
    simp [normalizeShortUrl, h]
  · intro input s l rest h
    simp [resolve_short_url, resolveLoop, h]
  · intro input loc rest
    have : isRedirectStatus 200 = false := by decide
    cases loc <;> simp [resolve_short_url, resolveLoop, this]
  · intro input oracle hlen hfail
    have hall : ∀ a ∈ oracle.take 3, attemptYieldsNothing a = true := by
      intro a ha
      have := hfail a ha
      cases a with
      | exn => rfl
      | resp s loc =>
        simp only [failedAttempt, Bool.and_eq_true, Bool.not_eq_true'] at this
        simp [attemptYieldsNothing, this.1, this.2]
    have htake : (oracle.take 3).length = 3 := by
      simp [List.length_take]
      omega
    simp [resolve_short_url, resolveLoop_allFail _ _ hall, htake]
  · intro input oracle
    have h1 := resolveLoop_attempts_le (normalizeShortUrl input) (oracle.take 3)
    have h2 : (oracle.take 3).length ≤ 3 := by
      simp [List.length_take]
    simp only [resolve_short_url]
    omega
  · intro input oracle h
    have : oracle.take 3 ≠ [] := by
      simp [List.take_eq_nil_iff, h]
    exact resolveLoop_sleep_spacing _ _ this

/-- Witness for C2: three failing attempts (timeout, HTTP 500, timeout)
on a scheme-less seed produce `none` after exactly 3 attempts and 2
sleeps. -/
theorem resolve_short_url_contract_witness :
    resolve_short_url "A80.CC" [.exn, .resp 500 none, .exn] 3 = ⟨none, 3, 2⟩ :=
  resolve_short_url_contract.2.2.2.1 "A80.CC" [.exn, .resp 500 none, .exn]
    (by decide) (by decide)

/-! ## Claim C9: a 3xx response without a Location header -/

/-- C9: a redirect response whose `Location` header is missing is not
returned: the loop falls through to the retry path exactly as for any
failed attempt, so three consecutive Location-less redirects exhaust the
attempts and yield `none`. -/
theorem redirect_without_location_retries :
    (∀ (url : String) (s : Nat) (rest : List AttemptOutcome),
        isRedirectStatus s = true →
        resolveLoop url (.resp s none :: rest)
          = failStep (resolveLoop url rest) (!rest.isEmpty))
    ∧ (∀ (input : String) (s : Nat), isRedirectStatus s = true →
        resolve_short_url input [.resp s none, .resp s none, .resp s none] 3
          = ⟨none, 3, 2⟩) := by
  constructor
  · intro url s rest h
    simp [resolveLoop, h]
  · intro input s h
    have hall : ∀ a ∈ [AttemptOutcome.resp s none, .resp s none, .resp s none],
        attemptYieldsNothing a = true := by
      intro a ha
      simp only [List.mem_cons, List.not_mem_nil, or_false] at ha
      rcases ha with h1 | h1 | h1 <;> subst h1 <;> simp [attemptYieldsNothing, h]
    simpa [resolve_short_url] using
      resolveLoop_allFail (normalizeShortUrl input) _ hall

/-- Witness for C9: three `302` responses without `Location`. -/
theorem redirect_without_location_retries_witness :
    resolve_short_url "47C.CC" [.resp 302 none, .resp 302 none, .resp 302 none] 3
      = ⟨none, 3, 2⟩ :=
  redirect_without_location_retries.2 "47C.CC" 302 (by decide)

/-! ## Helper lemmas: prefix tests and the bold-markup scanner -/

theorem isPrefixOf_length {l₁ l₂ : List Char} (h : l₁.isPrefixOf l₂ = true) :
    l₁.length ≤ l₂.length := by
  induction l₁ generalizing l₂ with
  | nil => simp
  | cons a as ih =>
    cases l₂ with
    | nil => simp [List.isPrefixOf] at h
    | cons b bs =>
      simp only [List.isPrefixOf, Bool.and_eq_true] at h
      have := ih h.2
      simp only [List.length_cons]
      omega

theorem isPrefixOf_append_self (l₁ l₂ : List Char) :
    l₁.isPrefixOf (l₁ ++ l₂) = true := by
  induction l₁ with
  | nil => simp [List.isPrefixOf]
  | cons a as ih => simp [List.isPrefixOf, ih]

theorem stripStrongGo_nil (fuel : Nat) : stripStrongGo fuel [] = [] := by
  cases fuel <;> rfl

/-- The fuel passed to `stripStrongGo` is irrelevant once it covers the
list length, so `stripStrong`'s choice of `cs.length` computes the full
left-to-right scan. -/
theorem stripStrongGo_fuel (fuel : Nat) :
    ∀ cs : List Char, cs.length ≤ fuel →
      stripStrongGo fuel cs = stripStrong cs := by
  induction fuel using Nat.strong_induction_on with
  | _ fuel ih =>
    intro cs hcs
    cases cs with
    | nil => rw [stripStrongGo_nil]; rfl
    | cons c rest =>
      cases fuel with
      | zero => simp at hcs
      | succ f =>
        have hrest : rest.length ≤ f := by
          simp only [List.length_cons] at hcs; omega
        have hcons : stripStrong (c :: rest)
            = stripStrongGo (rest.length + 1) (c :: rest) := by
          simp [stripStrong]
        by_cases h1 : "<strong>".data.isPrefixOf (c :: rest) = true
        · have e1 : stripStrongGo (f + 1) (c :: rest)
              = stripStrongGo f (rest.drop 7) := by
            simp [stripStrongGo, h1]
          have e2 : stripStrongGo (rest.length + 1) (c :: rest)
              = stripStrongGo rest.length (rest.drop 7) := by
            simp [stripStrongGo, h1]
          rw [e1, hcons, e2,
            ih f (Nat.lt_succ_self f) _
              (by simp only [List.length_drop]; omega),
            ih rest.length (Nat.lt_succ_of_le hrest) _
              (by simp only [List.length_drop]; omega)]
        · by_cases h2 : "</strong>".data.isPrefixOf (c :: rest) = true
          · have e1 : stripStrongGo (f + 1) (c :: rest)
                = stripStrongGo f (rest.drop 8) := by
              simp [stripStrongGo, h1, h2]
            have e2 : stripStrongGo (rest.length + 1) (c :: rest)
                = stripStrongGo rest.length (rest.drop 8) := by
              simp [stripStrongGo, h1, h2]
            rw [e1, hcons, e2,
              ih f (Nat.lt_succ_self f) _
                (by simp only [List.length_drop]; omega),
              ih rest.length (Nat.lt_succ_of_le hrest) _
                (by simp only [List.length_drop]; omega)]
          · have e1 : stripStrongGo (f + 1) (c :: rest)
                = c :: stripStrongGo f rest := by
              simp [stripStrongGo, h1, h2]
            have e2 : stripStrongGo (rest.length + 1) (c :: rest)
                = c :: stripStrongGo rest.length rest := by
              simp [stripStrongGo, h1, h2]
            rw [e1, hcons, e2, ih f (Nat.lt_succ_self f) rest hrest]
            rfl

/-! ## Claim C7: anchor selection in the aggregator -/

/-- Counterexample to C7 as stated: the code's test is
`href.startswith('http')`, so the anchor with href `httpx?id=1` — which
is not an absolute `http`/`https` URL — is selected and contributes a
result whenever its detail page yields a pan link. -/
theorem anchor_selection_cex :
    specAnchorSelected ⟨"httpx?id=1", some "t"⟩ = false
    ∧ collectResults [⟨"httpx?id=1", some "t"⟩]
        (fun _ => some "https://pan.quark.cn/s/a1")
        = [⟨"t", "https://pan.quark.cn/s/a1"⟩] := by
  constructor
  · decide
  · decide

/-- C7 amended: the aggregator selects exactly the anchors whose href is
non-empty, starts with the literal `http` (which subsumes the `https`
test), and contains the substring `id=`; each selected anchor's stored
title is the `title` attribute with every literal `<strong>`/`</strong>`
occurrence removed, and an unselected anchor contributes no result. -/
theorem collectResults_characterization :
    (∀ (anchors : List Anchor) (pan : String → Option String),
        collectResults anchors pan
          = (anchors.filter anchorSelected).filterMap
              (fun a => (pan a.href).map
                (fun link =>
                  ⟨String.mk (stripStrong (a.title.getD "").data), link⟩)))
    ∧ (∀ l : List Char, stripStrong ("<strong>".data ++ l) = stripStrong l)
    ∧ (∀ l : List Char, stripStrong ("</strong>".data ++ l) = stripStrong l)
    ∧ (∀ (c : Char) (l : List Char),
        "<strong>".data.isPrefixOf (c :: l) = false →
        "</strong>".data.isPrefixOf (c :: l) = false →
        stripStrong (c :: l) = c :: stripStrong l) := by
  refine ⟨?_, ?_, ?_, ?_⟩
  · intro anchors pan
    induction anchors with
    | nil => rfl
    | cons a rest ih =>
      by_cases hsel : anchorSelected a = true
      · cases hp : pan a.href with
        | none => simp [collectResults, hsel, hp, List.filter_cons, ih]
        | some link => simp [collectResults, hsel, hp, List.filter_cons, ih]
      · simp [collectResults, hsel, List.filter_cons, ih]
  · intro l
    have hsplit : "<strong>".data ++ l = '<' :: ("strong>".data ++ l) := rfl
    have hpre : "<strong>".data.isPrefixOf ('<' :: ("strong>".data ++ l)) = true := by
      rw [← hsplit]; exact isPrefixOf_append_self _ l
    have hdrop : ("strong>".data ++ l).drop 7 = l := by
      have : ("strong>".data).length = 7 := rfl
      rw [← this]
      exact List.drop_left _ l
    rw [stripStrong, hsplit]
    have hlen : ('<' :: ("strong>".data ++ l)).length = (("strong>".data ++ l)).length + 1 := rfl
    rw [hlen]
    rw [show stripStrongGo ((("strong>".data ++ l)).length + 1) ('<' :: ("strong>".data ++ l))
        = stripStrongGo (("strong>".data ++ l)).length (("strong>".data ++ l).drop 7) by
      simp [stripStrongGo, hpre]]
    rw [hdrop]
    refine stripStrongGo_fuel _ l ?_
    rw [List.length_append]
    omega
  · intro l
    have hsplit : "</strong>".data ++ l = '<' :: ("/strong>".data ++ l) := rfl
    have hpre1 : "<strong>".data.isPrefixOf ('<' :: ("/strong>".data ++ l)) = false := by
      simp [List.isPrefixOf]
    have hpre2 : "</strong>".data.isPrefixOf ('<' :: ("/strong>".data ++ l)) = true := by
      rw [← hsplit]; exact isPrefixOf_append_self _ l
    have hdrop : ("/strong>".data ++ l).drop 8 = l := by
      have : ("/strong>".data).length = 8 := rfl
      rw [← this]
      exact List.drop_left _ l
    rw [stripStrong, hsplit]
    have hlen : ('<' :: ("/strong>".data ++ l)).length = (("/strong>".data ++ l)).length + 1 := rfl
    rw [hlen]
    rw [show stripStrongGo ((("/strong>".data ++ l)).length + 1) ('<' :: ("/strong>".data ++ l))
        = stripStrongGo (("/strong>".data ++ l)).length (("/strong>".data ++ l).drop 8) by
      simp [stripStrongGo, hpre1, hpre2]]
    rw [hdrop]
    refine stripStrongGo_fuel _ l ?_
    rw [List.length_append]
    omega
  · intro c l h1 h2
    rw [stripStrong]
    rw [show (c :: l).length = l.length + 1 from rfl]
    simp [stripStrongGo, h1, h2, stripStrong]

/-- Witness for C7's amended statement: a character that opens no bold
tag is kept unchanged by the title scrubber. -/
theorem collectResults_characterization_witness :
    stripStrong ('a' :: "bc".data) = 'a' :: stripStrong "bc".data :=
  collectResults_characterization.2.2.2 'a' "bc".data (by decide) (by decide)

/-! ## Claim C1: endpoint iteration order in `search_drama` -/

/-- C1: endpoints are tried in stored order; an endpoint whose liveness
probe fails is skipped; the first live endpoint yielding a non-empty
result list is returned — whatever comes after it is irrelevant — and
when every endpoint is dead or yields zero results the call returns the
empty list. -/
theorem search_drama_first_success :
    (∀ (pan : String → Option String) (pre rest : List EndpointBehavior)
        (b : EndpointBehavior),
        (∀ p ∈ pre, p.alive = false ∨ endpointResults p pan = []) →
        b.alive = true → endpointResults b pan ≠ [] →
        search_drama (pre ++ b :: rest) pan = endpointResults b pan)
    ∧ (∀ (pan : String → Option String) (endpoints : List EndpointBehavior),
        (∀ b ∈ endpoints, b.alive = false ∨ endpointResults b pan = []) →
        search_drama endpoints pan = []) := by
  constructor
  · intro pan pre rest b hpre hb hres
    induction pre with
    | nil =>
      have : (endpointResults b pan).isEmpty = false := by
        simpa [List.isEmpty_iff] using hres
      simp [search_drama, hb, this]
    | cons p pre' ih =>
      have hp := hpre p (List.mem_cons_self p pre')
      have hrec := ih fun q hq => hpre q (List.mem_cons_of_mem p hq)
      rcases hp with hdead | hempty
      · simpa [search_drama, hdead] using hrec
      · by_cases hal : p.alive = true
        · have : (endpointResults p pan).isEmpty = true := by
            simp [List.isEmpty_iff, hempty]
          simpa [search_drama, hal, this] using hrec
        · have : p.alive = false := by
            cases hpa : p.alive
            · rfl
            · exact absurd hpa hal
          simpa [search_drama, this] using hrec
  · intro pan endpoints h
    induction endpoints with
    | nil => rfl
    | cons b rest ih =>
      have hb := h b (List.mem_cons_self b rest)
      have hrec := ih fun q hq => h q (List.mem_cons_of_mem b hq)
      rcases hb with hdead | hempty
      · simpa [search_drama, hdead] using hrec
      · by_cases hal : b.alive = true
        · have : (endpointResults b pan).isEmpty = true := by
            simp [List.isEmpty_iff, hempty]
          simpa [search_drama, hal, this] using hrec
        · have : b.alive = false := by
            cases hpa : b.alive
            · rfl
            · exact absurd hpa hal
          simpa [search_drama, this] using hrec

/-- Witness for C1: a dead first endpoint is skipped, the live second
endpoint's results are returned, and the third endpoint is ignored. -/
theorem search_drama_first_success_witness :
    search_drama
      [⟨false, some (200, [⟨"https://a/?id=1", some "x"⟩])⟩,
       ⟨true, some (200, [⟨"https://a/?id=1", some "x"⟩])⟩,
       ⟨true, none⟩]
      (fun _ => some "https://pan.quark.cn/s/p")
      = endpointResults ⟨true, some (200, [⟨"https://a/?id=1", some "x"⟩])⟩
          (fun _ => some "https://pan.quark.cn/s/p") :=
  search_drama_first_success.1 (fun _ => some "https://pan.quark.cn/s/p")
    [⟨false, some (200, [⟨"https://a/?id=1", some "x"⟩])⟩]
    [⟨true, none⟩]
    ⟨true, some (200, [⟨"https://a/?id=1", some "x"⟩])⟩
    (by decide) (by decide) (by decide)

/-! ## Claim C3: the discovery loop only appends, without duplicates -/

theorem discoverNew_nil_eq (normBase acc : List String) :
    discoverNew normBase acc [] = acc := rfl

theorem discoverNew_none_eq (normBase acc : List String)
    (rest : List (Option String)) :
    discoverNew normBase acc (none :: rest) = discoverNew normBase acc rest := rfl

theorem discoverNew_some_eq (normBase acc : List String) (r : String)
    (rest : List (Option String)) :
    discoverNew normBase acc (some r :: rest)
      = if rstripSlash (ensureSearchPath r) ∉ normBase
           ∧ rstripSlash (ensureSearchPath r) ∉ acc.map rstripSlash
        then discoverNew normBase (acc ++ [ensureSearchPath r]) rest
        else discoverNew normBase acc rest := rfl

theorem discoverNew_sound (normBase : List String) :
    ∀ (resolved : List (Option String)) (acc : List String),
      (∀ u ∈ acc, rstripSlash u ∉ normBase) →
      (acc.map rstripSlash).Nodup →
      (∀ u ∈ discoverNew normBase acc resolved, rstripSlash u ∉ normBase)
      ∧ ((discoverNew normBase acc resolved).map rstripSlash).Nodup
      ∧ ∃ tail, discoverNew normBase acc resolved = acc ++ tail := by
  intro resolved
  induction resolved with
  | nil =>
    intro acc h1 h2
    exact ⟨h1, h2, [], by simp [discoverNew_nil_eq]⟩
  | cons r rest ih =>
    intro acc h1 h2
    cases r with
    | none => rw [discoverNew_none_eq]; exact ih acc h1 h2
    | some resolvedUrl =>
      rw [discoverNew_some_eq]
      by_cases hc : rstripSlash (ensureSearchPath resolvedUrl) ∉ normBase
          ∧ rstripSlash (ensureSearchPath resolvedUrl) ∉ acc.map rstripSlash
      · rw [if_pos hc]
        have h1' : ∀ u ∈ acc ++ [ensureSearchPath resolvedUrl],
            rstripSlash u ∉ normBase := by
          intro u hu
          rcases List.mem_append.mp hu with h | h
          · exact h1 u h
          · simp only [List.mem_singleton] at h
            subst h
            exact hc.1
        have h2' : ((acc ++ [ensureSearchPath resolvedUrl]).map rstripSlash).Nodup := by
          rw [List.map_append, List.nodup_append]
          refine ⟨h2, by simp, ?_⟩
          intro x hx
          simp only [List.map_cons, List.map_nil, List.mem_singleton]
          intro hx'
          subst hx'
          exact hc.2 hx
        rcases ih (acc ++ [ensureSearchPath resolvedUrl]) h1' h2'
          with ⟨g1, g2, tail, g3⟩
        refine ⟨g1, g2, ensureSearchPath resolvedUrl :: tail, ?_⟩
        rw [g3, List.append_assoc]
        rfl
      · rw [if_neg hc]
        exact ih acc h1 h2

/-- C3: after the discovery pass, `base_urls` stays unique up to
trailing-slash normalisation, the pass only appends (the old list is a
prefix of the new one), and a resolved URL whose slash-stripped form
matches an existing base URL or one already discovered in the same pass
is not added — in particular two seeds resolving to the same normalised
endpoint add it exactly once. -/
theorem update_urls_invariant :
    (∀ (base : List String) (resolved : List (Option String)),
        (base.map rstripSlash).Nodup →
        ((update_urls base resolved).map rstripSlash).Nodup)
    ∧ (∀ (base : List String) (resolved : List (Option String)),
        base <+: update_urls base resolved)
    ∧ (∀ (base : List String) (r1 r2 : String),
        rstripSlash (ensureSearchPath r1) = rstripSlash (ensureSearchPath r2) →
        update_urls base [some r1, some r2] = update_urls base [some r1]) := by
  refine ⟨?_, ?_, ?_⟩
  · intro base resolved hbase
    rcases discoverNew_sound (base.map rstripSlash) resolved []
      (by simp) (by simp) with ⟨g1, g2, _⟩
    rw [update_urls, List.map_append, List.nodup_append]
    refine ⟨hbase, g2, ?_⟩
    intro x hx
    intro hx'
    rcases List.mem_map.mp hx' with ⟨v, hv, hvx⟩
    exact g1 v hv (hvx ▸ hx)
  · intro base resolved
    exact ⟨discoverNew (base.map rstripSlash) [] resolved, rfl⟩
  · intro base r1 r2 h
    rw [update_urls, update_urls]
    by_cases hmem : rstripSlash (ensureSearchPath r1) ∈ base.map rstripSlash
    · have hc1 : ¬ (rstripSlash (ensureSearchPath r1) ∉ base.map rstripSlash
          ∧ rstripSlash (ensureSearchPath r1)
              ∉ ([] : List String).map rstripSlash) :=
        fun hcontra => hcontra.1 hmem
      have hc2 : ¬ (rstripSlash (ensureSearchPath r2) ∉ base.map rstripSlash
          ∧ rstripSlash (ensureSearchPath r2)
              ∉ ([] : List String).map rstripSlash) :=
        fun hcontra => hcontra.1 (h ▸ hmem)
      rw [discoverNew_some_eq, if_neg hc1, discoverNew_some_eq, if_neg hc2,
        discoverNew_nil_eq, discoverNew_some_eq, if_neg hc1, discoverNew_nil_eq]
    · have hc1 : rstripSlash (ensureSearchPath r1) ∉ base.map rstripSlash
          ∧ rstripSlash (ensureSearchPath r1)
              ∉ ([] : List String).map rstripSlash := ⟨hmem, by simp⟩
      have hc2 : ¬ (rstripSlash (ensureSearchPath r2) ∉ base.map rstripSlash
          ∧ rstripSlash (ensureSearchPath r2)
              ∉ ([ensureSearchPath r1]).map rstripSlash) := by
        intro hcontra
        exact hcontra.2 (by simp [← h])
      rw [discoverNew_some_eq, if_pos hc1, discoverNew_some_eq]
      rw [if_neg (by simpa using hc2), discoverNew_nil_eq,
        discoverNew_some_eq, if_pos hc1, discoverNew_nil_eq]

/-- Witness for C3: two seeds resolving to `https://x.y/` and
`https://x.y` normalise identically and the endpoint is appended once. -/
theorem update_urls_invariant_witness :
    update_urls ["https://a.b/search.php"] [some "https://x.y/", some "https://x.y"]
      = update_urls ["https://a.b/search.php"] [some "https://x.y/"]
    ∧ ((update_urls ["https://a.b/search.php"]
          [some "https://x.y/", some "https://x.y"]).map rstripSlash).Nodup := by
  constructor
  · exact update_urls_invariant.2.2 ["https://a.b/search.php"]
      "https://x.y/" "https://x.y" (by decide)
  · exact update_urls_invariant.1 ["https://a.b/search.php"]
      [some "https://x.y/", some "https://x.y"] (by decide)
/-! ## Helper lemmas: the detail-lookup path -/

theorem resolve_index_of_none (cache : Cache) (key : String) (index : Nat)
    (h : cache key = none) :
    resolve_index cache key index = .notFound := by
  simp [resolve_index, h]

theorem resolve_index_of_oob (cache : Cache) (key : String) (index : Nat)
    (entry : CacheEntry) (h : cache key = some entry)
    (hr : index < 1 ∨ index > entry.results.length) :
    resolve_index cache key index = .outOfRange entry.results.length := by
  simp only [resolve_index, h]
  rw [if_pos hr]

theorem resolve_index_of_inb (cache : Cache) (key : String) (index : Nat)
    (entry : CacheEntry) (h : cache key = some entry) (h1 : 1 ≤ index)
    (h2 : index ≤ entry.results.length) :
    resolve_index cache key index
      = .found (entry.results.get ⟨index - 1, by omega⟩) := by
  simp only [resolve_index, h]
  rw [if_neg (by omega)]
  have hb : index - 1 < entry.results.length := by omega
  rw [List.get?_eq_get hb]
  rfl

theorem cachePut_self (cache : Cache) (key keyword : String)
    (results : List SearchResult) (now : ℚ) :
    (cachePut cache key keyword results now) key = some ⟨results, keyword, now⟩ := by
  simp [cachePut]

/-! ## Claim C4: the cache time-to-live -/

/-- Counterexample to C4 as stated: the purge keeps an entry whose age
is exactly the ttl (`now - created_at > ttl` is false at equality), so
at age `300` the entry is not removed and the lookup still returns it,
although `now - created_at < ttl` does not hold. -/
theorem cache_ttl_boundary_cex :
    ¬ ((300 : ℚ) - 0 < cache_expire_time)
    ∧ clean_expired_cache (cachePut emptyCache "group_user" "kw" [⟨"t", "l"⟩] 0)
        300 cache_expire_time "group_user" = some ⟨[⟨"t", "l"⟩], "kw", 0⟩
    ∧ handleDetail (cachePut emptyCache "group_user" "kw" [⟨"t", "l"⟩] 0)
        300 "group_user" 1 = .found ⟨"t", "l"⟩ := by
  refine ⟨by norm_num [cache_expire_time], ?_, ?_⟩
  · simp [clean_expired_cache, cachePut, emptyCache, cache_expire_time]
  · simp [handleDetail, clean_expired_cache, resolve_index, cachePut, emptyCache,
      cache_expire_time]

/-- C4 amended: an entry is valid for lookup while
`now - created_at ≤ ttl` (ttl = 300 seconds): the purge run before each
interaction removes exactly the entries whose age strictly exceeds the
ttl, so once the age exceeds the ttl the entry is never accessed and the
detail lookup fails as not-found; at age exactly equal to the ttl the
entry is still returned. -/
theorem cache_ttl_spec :
    (∀ (cache : Cache) (now : ℚ) (key : String) (entry : CacheEntry),
        clean_expired_cache cache now cache_expire_time key = some entry
          ↔ cache key = some entry ∧ now - entry.timestamp ≤ cache_expire_time)
    ∧ (∀ (cache : Cache) (now : ℚ) (key : String) (entry : CacheEntry),
        cache key = some entry →
        now - entry.timestamp > cache_expire_time →
        ∀ index : Nat, handleDetail cache now key index = .notFound) := by
  constructor
  · intro cache now key entry
    constructor
    · intro h
      cases hck : cache key with
      | none => simp [clean_expired_cache, hck] at h
      | some e =>
        by_cases ht : now - e.timestamp > cache_expire_time
        · simp [clean_expired_cache, hck, ht] at h
        · have he : e = entry := by
            simpa [clean_expired_cache, hck, ht] using h
          subst he
          exact ⟨rfl, not_lt.mp ht⟩
    · rintro ⟨h1, h2⟩
      simp [clean_expired_cache, h1, not_lt.mpr h2]
  · intro cache now key entry h1 h2 index
    have hclean : clean_expired_cache cache now cache_expire_time key = none := by
      simp [clean_expired_cache, h1, h2]
    exact resolve_index_of_none _ _ _ hclean

/-- Witness for C4's amended statement: at age 301 the purge removes the
entry and the detail lookup reports not-found. -/
theorem cache_ttl_spec_witness :
    handleDetail (cachePut emptyCache "group_user" "kw" [⟨"t", "l"⟩] 0)
      301 "group_user" 1 = .notFound :=
  cache_ttl_spec.2 (cachePut emptyCache "group_user" "kw" [⟨"t", "l"⟩] 0)
    301 "group_user" ⟨[⟨"t", "l"⟩], "kw", 0⟩
    (cachePut_self emptyCache "group_user" "kw" [⟨"t", "l"⟩] 0)
    (by norm_num [cache_expire_time]) 1

/-! ## Claim C5: index-based detail lookup -/

/-- C5: the detail lookup is 1-based over the cached results: a missing
entry yields not-found, an index outside `1..len(results)` yields
out-of-range, and otherwise the `(index-1)`-th cached result is
returned; in particular a fresh `put` of two results answers index 1
with the first result and rejects index 3 as out of range. -/
theorem resolve_index_contract :
    (∀ (cache : Cache) (key : String) (index : Nat),
        cache key = none → resolve_index cache key index = .notFound)
    ∧ (∀ (cache : Cache) (key : String) (index : Nat) (entry : CacheEntry),
        cache key = some entry →
        (index < 1 ∨ index > entry.results.length) →
        resolve_index cache key index = .outOfRange entry.results.length)
    ∧ (∀ (cache : Cache) (key : String) (index : Nat) (entry : CacheEntry)
        (h1 : cache key = some entry) (h2 : 1 ≤ index)
        (h3 : index ≤ entry.results.length),
        resolve_index cache key index
          = .found (entry.results.get ⟨index - 1, by omega⟩))
    ∧ (∀ (cache : Cache) (key keyword : String) (r1 r2 : SearchResult) (now : ℚ),
        resolve_index (cachePut cache key keyword [r1, r2] now) key 1 = .found r1
        ∧ resolve_index (cachePut cache key keyword [r1, r2] now) key 3
            = .outOfRange 2) := by
  refine ⟨resolve_index_of_none, resolve_index_of_oob, resolve_index_of_inb, ?_⟩
  intro cache key keyword r1 r2 now
  constructor
  · exact resolve_index_of_inb _ _ 1 _ (cachePut_self cache key keyword [r1, r2] now)
      (by omega) (by simp)
  · exact resolve_index_of_oob _ _ 3 _ (cachePut_self cache key keyword [r1, r2] now)
      (by simp)

/-- Witness for C5: a concrete two-entry cache answers index 1 with the
first result and rejects index 3. -/
theorem resolve_index_contract_witness :
    resolve_index (cachePut emptyCache "g_u" "kw" [⟨"a", "1"⟩, ⟨"b", "2"⟩] 0) "g_u" 1
      = .found ⟨"a", "1"⟩
    ∧ resolve_index (cachePut emptyCache "g_u" "kw" [⟨"a", "1"⟩, ⟨"b", "2"⟩] 0) "g_u" 3
      = .outOfRange 2 :=
  resolve_index_contract.2.2.2 emptyCache "g_u" "kw" ⟨"a", "1"⟩ ⟨"b", "2"⟩ 0

/-! ## Claim C10: the cache keeps results the preview hides -/

/-- C10: the cache stores the full result list even though the reply
previews only the first `max_results` titles, so an index beyond the
preview but within the full list resolves to that hidden result. -/
theorem cache_keeps_hidden_results :
    ∀ (cache : Cache) (key keyword : String) (results : List SearchResult)
      (now : ℚ) (max_results index : Nat)
      (h1 : max_results < index) (h2 : index ≤ results.length),
      (cachePut cache key keyword results now) key = some ⟨results, keyword, now⟩
      ∧ (previewTitles results max_results).length < index
      ∧ resolve_index (cachePut cache key keyword results now) key index
          = .found (results.get ⟨index - 1, by omega⟩) := by
  intro cache key keyword results now max_results index h1 h2
  refine ⟨cachePut_self cache key keyword results now, ?_, ?_⟩
  · simp only [previewTitles, List.length_map, List.length_take]
    omega
  · exact resolve_index_of_inb _ _ index _
      (cachePut_self cache key keyword results now) (by omega) (by simpa using h2)

/-- Witness for C10: with three cached results and a preview capped at
two titles, index 3 still resolves to the third result. -/
theorem cache_keeps_hidden_results_witness :
    (previewTitles [⟨"a", "1"⟩, ⟨"b", "2"⟩, ⟨"c", "3"⟩] 2).length < 3
    ∧ resolve_index
        (cachePut emptyCache "g_u" "kw" [⟨"a", "1"⟩, ⟨"b", "2"⟩, ⟨"c", "3"⟩] 0)
        "g_u" 3 = .found ⟨"c", "3"⟩ :=
  ⟨(cache_keeps_hidden_results emptyCache "g_u" "kw"
      [⟨"a", "1"⟩, ⟨"b", "2"⟩, ⟨"c", "3"⟩] 0 2 3 (by omega) (by decide)).2.1,
   (cache_keeps_hidden_results emptyCache "g_u" "kw"
      [⟨"a", "1"⟩, ⟨"b", "2"⟩, ⟨"c", "3"⟩] 0 2 3 (by omega) (by decide)).2.2⟩

/-! ## Claim C6: the pan-link extractor -/

theorem panMatchAt_nil : panMatchAt [] = none := by decide

theorem panSearch_eq_none (cs : List Char)
    (h : ∀ i : Nat, panMatchAt (cs.drop i) = none) :
    panSearch cs = none := by
  induction cs with
  | nil => rfl
  | cons c rest ih =>
    have h0 := h 0
    rw [List.drop_zero] at h0
    simp only [panSearch, h0]
    exact ih fun i => by
      have := h (i + 1)
      rwa [List.drop_succ_cons] at this

theorem panSearch_finds (cs : List Char) :
    ∀ (i : Nat) (m : List Char), panMatchAt (cs.drop i) = some m →
      (∀ j : Nat, j < i → panMatchAt (cs.drop j) = none) →
      panSearch cs = some m := by
  induction cs with
  | nil =>
    intro i m hm _
    rw [List.drop_nil, panMatchAt_nil] at hm
    exact absurd hm (by simp)
  | cons c rest ih =>
    intro i m hm hj
    cases i with
    | zero =>
      rw [List.drop_zero] at hm
      simp [panSearch, hm]
    | succ i' =>
      have h0 := hj 0 (Nat.succ_pos i')
      rw [List.drop_zero] at h0
      simp only [panSearch, h0]
      rw [List.drop_succ_cons] at hm
      exact ih i' m hm fun j hji => by
        have := hj (j + 1) (by omega)
        rwa [List.drop_succ_cons] at this

/-- C6: `get_pan_link` is absent on network failure, on any non-200
status and on a missing description; on a 200 response it returns the
first (leftmost) match of the fixed pattern — the label `链接：` followed
by `https://pan.quark.cn/s/` and a maximal non-empty alphanumeric token —
in the description, and is absent when the pattern never matches; in
particular the claim's example description yields
`https://pan.quark.cn/s/abc123XYZ`. -/
theorem get_pan_link_contract :
    get_pan_link .exn = none
    ∧ (∀ (s : Nat) (desc : Option String), s ≠ 200 →
        get_pan_link (.resp s desc) = none)
    ∧ get_pan_link (.resp 200 none) = none
    ∧ (∀ content : String,
        (∀ i : Nat, panMatchAt (content.data.drop i) = none) →
        get_pan_link (.resp 200 (some content)) = none)
    ∧ (∀ (content : String) (i : Nat) (m : List Char),
        panMatchAt (content.data.drop i) = some m →
        (∀ j : Nat, j < i → panMatchAt (content.data.drop j) = none) →
        get_pan_link (.resp 200 (some content)) = some (String.mk m))
    ∧ get_pan_link (.resp 200 (some "...链接：https://pan.quark.cn/s/abc123XYZ..."))
        = some "https://pan.quark.cn/s/abc123XYZ" := by
  refine ⟨rfl, ?_, rfl, ?_, ?_, by decide⟩
  · intro s desc h
    simp [get_pan_link, h]
  · intro content h
    by_cases hc : content = ""
    · simp [get_pan_link, hc]
    · simp [get_pan_link, hc, panSearch_eq_none content.data h]
  · intro content i m hm hj
    by_cases hc : content = ""
    · subst hc
      have : panMatchAt ((("" : String).data).drop i) = none := by
        have hd : ("" : String).data = [] := rfl
        rw [hd, List.drop_nil, panMatchAt_nil]
      exact absurd (this ▸ hm) (by simp [this] at hm ⊢)
    · simp [get_pan_link, hc, panSearch_finds content.data i m hm hj]

/-- Witness for C6: a 404 detail page yields no pan link. -/
theorem get_pan_link_contract_witness :
    get_pan_link (.resp 404 (some "链接：https://pan.quark.cn/s/abc")) = none :=
  get_pan_link_contract.2.1 404 (some "链接：https://pan.quark.cn/s/abc")
    (by decide)

end DuanjuSpider

